import Mathlib

/-!
Shallow embedding of the `pgq` Postgres job-queue library (`pgq.go`).

The database table `__pgq_jobs` is modelled as a list of `Job` rows together
with a `nextId` counter standing for the `SERIAL` primary-key sequence.
Postgres row locks held by concurrent in-flight transactions are modelled as
an explicit set (`locked : List Nat`) of row ids, so that the
`FOR UPDATE SKIP LOCKED` clause of the claim query becomes "skip rows whose
id is in `locked`".  Timestamps are natural numbers; `NOW()` is a `now`
parameter (inside one Postgres transaction `NOW()` is constant, so a single
`now` per `Pop` call is faithful).  Go's `error` results become
`Option String` / `Except String`; `sql.NullString` and `sql.NullTime`
become `Option String` and `Option Nat`.  The `defer tx.Rollback()` /
`tx.Commit()` discipline is modelled by threading the pre-transaction
database state through every failure branch and returning the transaction's
pending state only on the commit branch; injected `PopFaults` flags stand
for the failure of BeginTx, the claim query / row scan, the status-update
statement, and the commit.
-/

namespace Pgq

/-- Job status constants from `pgq.go`. -/
def JobStatusWaiting : String := "waiting"

/-- Job is currently being processed. -/
def JobStatusRunning : String := "running"

/-- Job has been processed successfully. -/
def JobStatusDone : String := "done"

/-- Job has been processed and resulted in an error. -/
def JobStatusError : String := "error"

/-- A row of the jobs table (struct `Job` in `pgq.go`).  Field `Type` of the
Go struct is called `jobType` (after the `job_type` column) because `Type`
is reserved in Lean. -/
structure Job where
  id : Nat
  jobType : String
  data : String
  status : String
  error : Option String
  attempt : Nat
  createdAt : Nat
  startedAt : Option Nat
  finishedAt : Option Nat
deriving DecidableEq, Repr

/-- The database state: the rows of the jobs table plus the `SERIAL`
sequence counter that produces the next primary key. -/
structure DB where
  nextId : Nat
  rows : List Job
deriving DecidableEq, Repr

/-- Process-local queue state (struct `Queue`): the handler registry, a map
from job-type name to handler.  A handler returns `none` for a nil Go error
and `some msg` for an error with message `msg`.  The map is an association
list; `Put`/`Pop`/`RegisterHandler` only ever consult it via `lookup`. -/
structure Queue where
  handlers : List (String × (Job → Option String))

/-- Go map membership test `q.handlers[jobType]`. -/
def hasHandler (q : Queue) (jobType : String) : Bool :=
  (q.handlers.lookup jobType).isSome

/-- `RegisterHandler` (pgq.go lines 78-85): binds a handler to a job type,
failing if one is already bound.  Returns the error (if any) and the
resulting queue state; on the duplicate error the receiver is untouched. -/
def RegisterHandler (q : Queue) (jobType : String) (handler : Job → Option String) :
    Option String × Queue :=
  if hasHandler q jobType then
    (some ("queue: handler already registered for job type " ++ jobType), q)
  else
    (none, { handlers := q.handlers ++ [(jobType, handler)] })

/-- `Put` (pgq.go lines 88-101): checks a handler is registered, then runs
`INSERT INTO jobs (job_type, data) VALUES ($1, $2)`.  The omitted columns
take their schema defaults from `SetupDatabase`: `status = 'waiting'`,
`error = NULL`, `attempt = 0`, `created_at = NOW()`, `started_at = NULL`,
`finished_at = NULL`, and `id` from the serial sequence. -/
def Put (q : Queue) (db : DB) (now : Nat) (jobType : String) (data : String) :
    Except String Unit × DB :=
  if !hasHandler q jobType then
    (.error ("queue: no handler registered for job type " ++ jobType), db)
  else
    (.ok (), { nextId := db.nextId + 1,
               rows := db.rows ++
                 [{ id := db.nextId, jobType := jobType, data := data,
                    status := JobStatusWaiting, error := none, attempt := 0,
                    createdAt := now, startedAt := none, finishedAt := none }] })

/-- The `WHERE` condition of the claim subquery (pgq.go lines 129-134):
`jobs.status = 'waiting' AND jobs.job_type = ANY($3)`, restricted by
`FOR UPDATE SKIP LOCKED` to rows not locked by a concurrent transaction. -/
def eligible (jobTypes : List String) (locked : List Nat) (j : Job) : Bool :=
  j.status == JobStatusWaiting && jobTypes.contains j.jobType &&
    !(locked.contains j.id)

/-- The row with the smallest `id` in a list, if any
(`ORDER BY jobs.id ASC ... LIMIT 1`). -/
def minIdRow : List Job → Option Job
  | [] => none
  | j :: js =>
    match minIdRow js with
    | none => some j
    | some m => if j.id ≤ m.id then some j else some m

/-- The claim subquery (pgq.go lines 128-135): among eligible unlocked
waiting rows, the one with the smallest id. -/
def selectEligible (rows : List Job) (jobTypes : List String) (locked : List Nat) :
    Option Job :=
  minIdRow (rows.filter (eligible jobTypes locked))

/-- The `SET` clause of the claim `UPDATE` (pgq.go lines 122-127):
`status = 'running', error = NULL, attempt = attempt + 1,
started_at = NOW(), finished_at = NULL`. -/
def claimUpdate (now : Nat) (j : Job) : Job :=
  { j with status := JobStatusRunning, error := none, attempt := j.attempt + 1,
           startedAt := some now, finishedAt := none }

/-- `UPDATE jobs SET ... WHERE id = i`: applies `f` to every row whose id
matches (the id is a primary key, so in any well-formed state at most one
row matches). -/
def updateRow (rows : List Job) (i : Nat) (f : Job → Job) : List Job :=
  rows.map (fun r => if r.id == i then f r else r)

/-- The whole claim statement (pgq.go lines 121-137):
`UPDATE jobs SET <claim fields> WHERE id IN (<claim subquery>) RETURNING *`.
Returns the row produced by `RETURNING` (the post-update image of the
selected row) and the updated table. -/
def claimQuery (rows : List Job) (jobTypes : List String) (locked : List Nat)
    (now : Nat) : Option Job × List Job :=
  match selectEligible rows jobTypes locked with
  | none => (none, rows)
  | some j => (some (claimUpdate now j), updateRow rows j.id (claimUpdate now))

/-- The terminal-status statement (pgq.go lines 156-165):
`UPDATE jobs SET status = $1, error = $2, finished_at = NOW() WHERE id = $3`. -/
def resolveQuery (rows : List Job) (i : Nat) (newStatus : String)
    (newError : Option String) (now : Nat) : List Job :=
  updateRow rows i
    (fun r => { r with status := newStatus, error := newError, finishedAt := some now })

/-- `q.handlers[job.Type](job)` (pgq.go line 147).  When no handler is
bound the Go program would dereference a nil map entry; `Pop` only reaches
this call after checking that every requested type has a handler, so the
`none` fallback is unreachable there. -/
def applyHandler (q : Queue) (jobType : String) (j : Job) : Option String :=
  match q.handlers.lookup jobType with
  | some h => h j
  | none => none

/-- Injected failures for the fallible database steps of `Pop`:
`BeginTx`, the claim query / `row.Scan` (a real error, not
`sql.ErrNoRows`), the status-update `ExecContext`, and `tx.Commit`. -/
structure PopFaults where
  beginFail : Bool
  queryFail : Bool
  execFail : Bool
  commitFail : Bool
deriving DecidableEq, Repr

/-- The fault-free execution environment. -/
def noFaults : PopFaults := ⟨false, false, false, false⟩

/-- `Pop` (pgq.go lines 104-171): validate the requested types, open a
transaction, run the claim statement, on `sql.ErrNoRows` return success,
otherwise invoke the handler on the claimed row, map its outcome to
`done`/`error`, write the terminal status and commit.  Every failure
branch returns the pre-transaction database state: the deferred
`tx.Rollback()` discards the transaction's pending writes, which only
become visible through `tx.Commit()`. -/
def Pop (q : Queue) (db : DB) (locked : List Nat) (now : Nat)
    (jobTypes : List String) (f : PopFaults) : Except String Unit × DB :=
  if jobTypes.isEmpty then
    (.error "queue: no job type specified", db)
  else
    match jobTypes.find? (fun t => !hasHandler q t) with
    | some t => (.error ("queue: no handler registered for job type " ++ t), db)
    | none =>
      if f.beginFail then
        (.error "queue: failed to start transaction", db)
      else if f.queryFail then
        (.error "queue: failed to pop job", db)
      else
        match claimQuery db.rows jobTypes locked now with
        | (none, _) => (.ok (), db)
        | (some job, rows1) =>
          let herr := applyHandler q job.jobType job
          let newStatus := if herr.isNone then JobStatusDone else JobStatusError
          if f.execFail then
            (.error "queue: failed to update job status", db)
          else if f.commitFail then
            (.error "queue: failed to commit transaction", db)
          else
            (.ok (), { db with rows := resolveQuery rows1 job.id newStatus herr now })

/-- The row-state invariant of the spec: `finished_at` is non-null only
when status is `done` or `error`, and `started_at` is non-null whenever
status is not `waiting`. -/
def rowInvariant (j : Job) : Prop :=
  (j.finishedAt.isSome → j.status = JobStatusDone ∨ j.status = JobStatusError) ∧
  (j.status ≠ JobStatusWaiting → j.startedAt.isSome)

instance (j : Job) : Decidable (rowInvariant j) := by
  unfold rowInvariant; infer_instance

/-- The composite effect of a successful `Pop` on the claimed row `j0`:
the claim update (pgq.go lines 121-137) followed by the terminal-status
update (lines 147-165) computed from the handler outcome on the claimed
row image. -/
def claimResolve (q : Queue) (j0 : Job) (now : Nat) (r : Job) : Job :=
  { r with
    status := if (applyHandler q (claimUpdate now j0).jobType
                 (claimUpdate now j0)).isNone
              then JobStatusDone else JobStatusError,
    error := applyHandler q (claimUpdate now j0).jobType (claimUpdate now j0),
    attempt := r.attempt + 1, startedAt := some now, finishedAt := some now }

/-! ### Concrete states used by the witnesses -/

/-- A handler that always succeeds (returns a nil Go error). -/
def handlerOk : Job → Option String := fun _ => none

/-- A handler that always fails with message `"smtp down"`. -/
def handlerErr : Job → Option String := fun _ => some "smtp down"

/-- A queue with a single handler bound to type `"email"`. -/
def qOne : Queue := { handlers := [("email", handlerOk)] }

/-- A queue whose `"email"` handler always fails. -/
def qErr : Queue := { handlers := [("email", handlerErr)] }

/-- An empty jobs table. -/
def dbEmpty : DB := { nextId := 1, rows := [] }

/-- A waiting `"email"` row with id 1. -/
def jobWaiting : Job :=
  { id := 1, jobType := "email", data := "hi", status := JobStatusWaiting,
    error := none, attempt := 0, createdAt := 0, startedAt := none,
    finishedAt := none }

/-- A second waiting `"email"` row with id 2. -/
def jobWaiting2 : Job :=
  { id := 2, jobType := "email", data := "ho", status := JobStatusWaiting,
    error := none, attempt := 0, createdAt := 0, startedAt := none,
    finishedAt := none }

/-- A table with one waiting row. -/
def dbOne : DB := { nextId := 2, rows := [jobWaiting] }

/-- A table with two waiting rows of the same type. -/
def dbTwo : DB := { nextId := 3, rows := [jobWaiting, jobWaiting2] }

/-- Faults making only the final `tx.Commit()` fail. -/
def commitFault : PopFaults := ⟨false, false, false, true⟩

/-! ### Helper lemmas about the claim-query building blocks -/

theorem minIdRow_eq_none {l : List Job} : minIdRow l = none ↔ l = [] := by
  cases l with
  | nil => simp [minIdRow]
  | cons a as =>
    constructor
    · intro h
      exfalso
      cases hm : minIdRow as with
      | none =>
        simp only [minIdRow, hm] at h
        exact Option.noConfusion h
      | some m =>
        simp only [minIdRow, hm] at h
        by_cases hle : a.id ≤ m.id
        · rw [if_pos hle] at h; exact Option.noConfusion h
        · rw [if_neg hle] at h; exact Option.noConfusion h
    · intro h
      exact absurd h (List.cons_ne_nil a as)

theorem minIdRow_mem {l : List Job} : ∀ {j : Job}, minIdRow l = some j → j ∈ l := by
  induction l with
  | nil => intro j h; simp [minIdRow] at h
  | cons a as ih =>
    intro j h
    cases hm : minIdRow as with
    | none =>
      simp only [minIdRow, hm, Option.some_inj] at h
      subst h
      exact List.mem_cons_self a as
    | some m =>
      simp only [minIdRow, hm] at h
      by_cases hle : a.id ≤ m.id
      · rw [if_pos hle, Option.some_inj] at h
        subst h
        exact List.mem_cons_self a as
      · rw [if_neg hle, Option.some_inj] at h
        subst h
        exact List.mem_cons_of_mem a (ih hm)

theorem minIdRow_min {l : List Job} : ∀ {j : Job}, minIdRow l = some j →
    ∀ x ∈ l, j.id ≤ x.id := by
  induction l with
  | nil => intro j h; simp [minIdRow] at h
  | cons a as ih =>
    intro j h x hx
    cases hm : minIdRow as with
    | none =>
      simp only [minIdRow, hm, Option.some_inj] at h
      subst h
      have has : as = [] := minIdRow_eq_none.mp hm
      subst has
      rcases List.mem_cons.mp hx with hxa | hxas
      · rw [hxa]
      · exact absurd hxas (List.not_mem_nil x)
    | some m =>
      simp only [minIdRow, hm] at h
      rcases List.mem_cons.mp hx with hxa | hxas
      · rw [hxa]
        by_cases hle : a.id ≤ m.id
        · rw [if_pos hle, Option.some_inj] at h; subst h; exact le_refl _
        · rw [if_neg hle, Option.some_inj] at h; subst h; omega
      · by_cases hle : a.id ≤ m.id
        · rw [if_pos hle, Option.some_inj] at h; subst h
          exact le_trans hle (ih hm x hxas)
        · rw [if_neg hle, Option.some_inj] at h; subst h
          exact ih hm x hxas

theorem eligible_iff {jobTypes : List String} {locked : List Nat} {j : Job} :
    eligible jobTypes locked j = true ↔
      j.status = JobStatusWaiting ∧ j.jobType ∈ jobTypes ∧ j.id ∉ locked := by
  simp [eligible, and_assoc]

theorem selectEligible_mem {rows : List Job} {jobTypes : List String}
    {locked : List Nat} {j : Job} (h : selectEligible rows jobTypes locked = some j) :
    j ∈ rows ∧ eligible jobTypes locked j = true := by
  have hm := minIdRow_mem h
  exact List.mem_filter.mp hm

theorem selectEligible_min {rows : List Job} {jobTypes : List String}
    {locked : List Nat} {j : Job} (h : selectEligible rows jobTypes locked = some j) :
    ∀ x ∈ rows, eligible jobTypes locked x = true → j.id ≤ x.id := by
  intro x hx he
  exact minIdRow_min h x (List.mem_filter.mpr ⟨hx, he⟩)

theorem selectEligible_eq_none {rows : List Job} {jobTypes : List String}
    {locked : List Nat} :
    selectEligible rows jobTypes locked = none ↔
      ∀ x ∈ rows, eligible jobTypes locked x = false := by
  rw [selectEligible, minIdRow_eq_none, List.filter_eq_nil_iff]
  constructor
  · intro h x hx
    simpa using h x hx
  · intro h x hx
    simp [h x hx]

theorem updateRow_length (rows : List Job) (i : Nat) (f : Job → Job) :
    (updateRow rows i f).length = rows.length := by
  simp [updateRow]

theorem updateRow_id_not_mem : ∀ (rows : List Job) (i : Nat) (f : Job → Job),
    i ∉ rows.map Job.id → updateRow rows i f = rows
  | [], _, _, _ => rfl
  | a :: as, i, f, h => by
    simp only [List.map_cons, List.mem_cons, not_or] at h
    have h1 : (a.id == i) = false := beq_eq_false_iff_ne.mpr (Ne.symm h.1)
    show (if (a.id == i) = true then f a else a) :: updateRow as i f = a :: as
    rw [updateRow_id_not_mem as i f h.2, h1]
    simp

theorem updateRow_append (l1 l2 : List Job) (i : Nat) (f : Job → Job) :
    updateRow (l1 ++ l2) i f = updateRow l1 i f ++ updateRow l2 i f := by
  simp [updateRow]

theorem updateRow_split (l1 l2 : List Job) (j : Job) (f : Job → Job)
    (hn : ((l1 ++ j :: l2).map Job.id).Nodup) :
    updateRow (l1 ++ j :: l2) j.id f = l1 ++ f j :: l2 := by
  rw [List.map_append, List.map_cons] at hn
  rcases List.nodup_append.mp hn with ⟨_, h2, hdisj⟩
  have hj1 : j.id ∉ l1.map Job.id := fun hmem => hdisj hmem (List.mem_cons_self _ _)
  have hj2 : j.id ∉ l2.map Job.id := (List.nodup_cons.mp h2).1
  rw [updateRow_append, updateRow_id_not_mem l1 j.id f hj1]
  show l1 ++ (if (j.id == j.id) = true then f j else j) :: updateRow l2 j.id f = _
  rw [updateRow_id_not_mem l2 j.id f hj2]
  simp

theorem updateRow_comp (rows : List Job) (i : Nat) (f g : Job → Job)
    (hf : ∀ r, (f r).id = r.id) :
    updateRow (updateRow rows i f) i g = updateRow rows i (fun r => g (f r)) := by
  unfold updateRow
  rw [List.map_map]
  apply List.map_congr_left
  intro r _
  by_cases h : (r.id == i) = true
  · simp only [Function.comp, h, if_true]
    have : ((f r).id == i) = true := by
      rw [hf r]; exact h
    simp [this]
  · simp only [Function.comp, h, if_false]
    simp [h]

theorem mem_updateRow {rows : List Job} {i : Nat} {f : Job → Job} {r : Job}
    (h : r ∈ updateRow rows i f) :
    ∃ r0 ∈ rows, r = if (r0.id == i) = true then f r0 else r0 := by
  simp only [updateRow] at h
  rcases List.mem_map.mp h with ⟨r0, hr0, heq⟩
  exact ⟨r0, hr0, heq.symm⟩

theorem forall2_updateRow (rows : List Job) (i : Nat) (f : Job → Job)
    (R : Job → Job → Prop) (hR : ∀ r ∈ rows, R r r) (hRf : ∀ r ∈ rows, R r (f r)) :
    List.Forall₂ R rows (updateRow rows i f) := by
  unfold updateRow
  rw [List.forall₂_map_right_iff, List.forall₂_same]
  intro x hx
  by_cases h : (x.id == i) = true
  · simp only [h, if_true]; exact hRf x hx
  · simp only [h, if_false]; exact hR x hx

theorem updateRow_map_id (rows : List Job) (i : Nat) (f : Job → Job)
    (hf : ∀ r, (f r).id = r.id) :
    (updateRow rows i f).map Job.id = rows.map Job.id := by
  unfold updateRow
  rw [List.map_map]
  apply List.map_congr_left
  intro r _
  by_cases h : (r.id == i) = true
  · simp [Function.comp, h, hf r]
  · simp [Function.comp, h]

theorem find_missing_none {q : Queue} {jobTypes : List String}
    (hh : ∀ t ∈ jobTypes, hasHandler q t = true) :
    jobTypes.find? (fun t => !hasHandler q t) = none := by
  rw [List.find?_eq_none]
  intro t ht
  simp [hh t ht]

theorem claimQuery_fst {rows : List Job} {jobTypes : List String} {locked : List Nat}
    {now : Nat} {j' : Job} (h : (claimQuery rows jobTypes locked now).1 = some j') :
    ∃ j0, selectEligible rows jobTypes locked = some j0 ∧ j' = claimUpdate now j0 ∧
      claimQuery rows jobTypes locked now =
        (some (claimUpdate now j0), updateRow rows j0.id (claimUpdate now)) := by
  cases hs : selectEligible rows jobTypes locked with
  | none =>
    simp only [claimQuery, hs] at h
    exact Option.noConfusion h
  | some j0 =>
    simp only [claimQuery, hs, Option.some_inj] at h
    exact ⟨j0, rfl, h.symm, by simp only [claimQuery, hs]⟩

/-- A successful pass through `Pop`: no precondition failure, no injected
database fault, and an eligible row `j0`.  The resulting table applies
`claimResolve` to the claimed id. -/
theorem pop_success_eq (q : Queue) (db : DB) (locked : List Nat) (now : Nat)
    (jobTypes : List String) (j0 : Job) (f : PopFaults)
    (hne : jobTypes.isEmpty = false)
    (hfind : jobTypes.find? (fun s => !hasHandler q s) = none)
    (hsel : selectEligible db.rows jobTypes locked = some j0)
    (hb : f.beginFail = false) (hq : f.queryFail = false)
    (he : f.execFail = false) (hcm : f.commitFail = false) :
    Pop q db locked now jobTypes f =
      (.ok (), { db with rows := updateRow db.rows j0.id (claimResolve q j0 now) }) := by
  have h1 : Pop q db locked now jobTypes f =
      (.ok (), { db with
                 rows := resolveQuery (updateRow db.rows j0.id (claimUpdate now))
                   (claimUpdate now j0).id
                   (if (applyHandler q (claimUpdate now j0).jobType
                        (claimUpdate now j0)).isNone
                    then JobStatusDone else JobStatusError)
                   (applyHandler q (claimUpdate now j0).jobType (claimUpdate now j0))
                   now }) := by
    simp [Pop, hne, hfind, hb, hq, he, hcm, claimQuery, hsel]
  rw [h1]
  exact congrArg (fun X => ((Except.ok () : Except String Unit), { db with rows := X }))
    (updateRow_comp db.rows j0.id (claimUpdate now)
      (fun r => { r with
        status := if (applyHandler q (claimUpdate now j0).jobType
                     (claimUpdate now j0)).isNone
                  then JobStatusDone else JobStatusError,
        error := applyHandler q (claimUpdate now j0).jobType (claimUpdate now j0),
        finishedAt := some now })
      (fun r => rfl))

/-- Every `Pop` call either leaves the table untouched or claims and
resolves exactly the rows carrying one eligible id. -/
theorem pop_result_shape (q : Queue) (db : DB) (locked : List Nat) (now : Nat)
    (jobTypes : List String) (f : PopFaults) :
    (Pop q db locked now jobTypes f).2 = db ∨
    ∃ j0, selectEligible db.rows jobTypes locked = some j0 ∧
      Pop q db locked now jobTypes f =
        (.ok (), { db with rows := updateRow db.rows j0.id (claimResolve q j0 now) }) := by
  by_cases h1 : jobTypes.isEmpty = true
  · left; simp [Pop, h1]
  · cases hf : jobTypes.find? (fun s => !hasHandler q s) with
    | some t => left; simp [Pop, h1, hf]
    | none =>
      by_cases hb : f.beginFail = true
      · left; simp [Pop, h1, hf, hb]
      · by_cases hq : f.queryFail = true
        · left; simp [Pop, h1, hf, hb, hq]
        · cases hs : selectEligible db.rows jobTypes locked with
          | none =>
            left
            have hc : claimQuery db.rows jobTypes locked now = (none, db.rows) := by
              simp only [claimQuery, hs]
            simp [Pop, h1, hf, hb, hq, hc]
          | some j0 =>
            have hc : claimQuery db.rows jobTypes locked now =
                (some (claimUpdate now j0), updateRow db.rows j0.id (claimUpdate now)) := by
              simp only [claimQuery, hs]
            by_cases he : f.execFail = true
            · left; simp [Pop, h1, hf, hb, hq, hc, he]
            · by_cases hcm : f.commitFail = true
              · left; simp [Pop, h1, hf, hb, hq, hc, he, hcm]
              · right
                refine ⟨j0, rfl, ?_⟩
                exact pop_success_eq q db locked now jobTypes j0 f
                  (by simpa using h1) hf hs (by simpa using hb) (by simpa using hq)
                  (by simpa using he) (by simpa using hcm)

/-! ### Claim theorems -/

/-- C7: a second `RegisterHandler` call for a type that already has a bound
handler returns the duplicate-handler error and leaves the queue (hence the
handler map, and in particular the first registered binding) unchanged. -/
theorem registerHandler_duplicate (q : Queue) (jobType : String)
    (handler : Job → Option String) (hdup : hasHandler q jobType = true) :
    RegisterHandler q jobType handler =
      (some ("queue: handler already registered for job type " ++ jobType), q) := by
  simp [RegisterHandler, hdup]

/-- Witness for C7 at a concrete queue that already has an `"email"` handler. -/
theorem registerHandler_duplicate_witness :
    RegisterHandler qOne "email" handlerErr =
      (some ("queue: handler already registered for job type " ++ "email"), qOne) :=
  registerHandler_duplicate qOne "email" handlerErr rfl

/-- C6: `Pop` with an empty type set fails with the no-job-type error, `Pop`
with a type lacking a handler fails with a missing-handler error (for the
first such type in the list), and `Put` for an unregistered type fails with
the missing-handler error; in every case this happens for every possible
database-fault environment and the table is returned unchanged, because the
check precedes any database access. -/
theorem precondition_errors_no_mutation (q : Queue) (db : DB) (locked : List Nat)
    (now : Nat) (jobTypes : List String) (f : PopFaults) (t data : String) :
    (jobTypes = [] →
      Pop q db locked now jobTypes f = (.error "queue: no job type specified", db)) ∧
    (t ∈ jobTypes → hasHandler q t = false →
      ∃ t', t' ∈ jobTypes ∧ hasHandler q t' = false ∧
        Pop q db locked now jobTypes f =
          (.error ("queue: no handler registered for job type " ++ t'), db)) ∧
    (hasHandler q t = false →
      Put q db now t data =
        (.error ("queue: no handler registered for job type " ++ t), db)) := by
  refine ⟨?_, ?_, ?_⟩
  · intro h
    subst h
    simp [Pop]
  · intro ht hmiss
    have hsome : (jobTypes.find? (fun s => !hasHandler q s)).isSome := by
      rw [List.find?_isSome]
      exact ⟨t, ht, by simp [hmiss]⟩
    rcases Option.isSome_iff_exists.mp hsome with ⟨t', heq⟩
    refine ⟨t', List.mem_of_find?_eq_some heq, ?_, ?_⟩
    · have hp := List.find?_some heq
      simpa using hp
    · have hne : jobTypes.isEmpty = false := by
        cases jobTypes with
        | nil => exact absurd ht (List.not_mem_nil t)
        | cons a as => rfl
      simp [Pop, hne, heq]
  · intro hmiss
    simp [Put, hmiss]

/-- Witness for C6: empty type set, unregistered `Pop` type, unregistered
`Put` type, each at a concrete state, leaving the table unchanged. -/
theorem precondition_errors_no_mutation_witness :
    Pop qOne dbOne [] 0 [] commitFault = (.error "queue: no job type specified", dbOne) ∧
    (∃ t', t' ∈ ["sms"] ∧ hasHandler qOne t' = false ∧
      Pop qOne dbOne [] 0 ["sms"] commitFault =
        (.error ("queue: no handler registered for job type " ++ t'), dbOne)) ∧
    Put qOne dbOne 0 "sms" "x" =
      (.error ("queue: no handler registered for job type " ++ "sms"), dbOne) := by
  refine ⟨?_, ?_, ?_⟩
  · exact (precondition_errors_no_mutation qOne dbOne [] 0 [] commitFault "sms" "x").1 rfl
  · exact (precondition_errors_no_mutation qOne dbOne [] 0 ["sms"] commitFault "sms" "x").2.1
      (by decide) (by decide)
  · exact (precondition_errors_no_mutation qOne dbOne [] 0 ["sms"] commitFault "sms" "x").2.2
      (by decide)

/-- C5: `Pop` with a non-empty, fully registered type set over a backlog
with no eligible waiting row returns success and leaves the table
unchanged (so no handler outcome is recorded anywhere): an empty backlog
is not an error. -/
theorem pop_empty_backlog (q : Queue) (db : DB) (locked : List Nat) (now : Nat)
    (jobTypes : List String) (hne : jobTypes ≠ [])
    (hh : ∀ t ∈ jobTypes, hasHandler q t = true)
    (hsel : selectEligible db.rows jobTypes locked = none) :
    Pop q db locked now jobTypes noFaults = (.ok (), db) := by
  have hempty : jobTypes.isEmpty = false := by
    cases jobTypes with
    | nil => exact absurd rfl hne
    | cons a as => rfl
  have hfind := find_missing_none hh
  simp [Pop, hempty, hfind, noFaults, claimQuery, hsel]

/-- Witness for C5: popping from an empty table succeeds and mutates nothing. -/
theorem pop_empty_backlog_witness :
    Pop qOne dbEmpty [] 5 ["email"] noFaults = (.ok (), dbEmpty) :=
  pop_empty_backlog qOne dbEmpty [] 5 ["email"] (by decide) (by decide) rfl

/-- C3: whenever `Pop` returns an error — precondition failures as well as
an injected failure of the claim query / row scan, the status update, or
the commit — the returned database state is exactly the pre-call state:
the transaction is rolled back and no partial effect is visible. -/
theorem pop_error_rolls_back (q : Queue) (db : DB) (locked : List Nat) (now : Nat)
    (jobTypes : List String) (f : PopFaults) (e : String)
    (h : (Pop q db locked now jobTypes f).1 = .error e) :
    (Pop q db locked now jobTypes f).2 = db := by
  by_cases h1 : jobTypes.isEmpty = true
  · simp [Pop, h1]
  · cases hf : jobTypes.find? (fun s => !hasHandler q s) with
    | some t => simp [Pop, h1, hf]
    | none =>
      by_cases hb : f.beginFail = true
      · simp [Pop, h1, hf, hb]
      · by_cases hq : f.queryFail = true
        · simp [Pop, h1, hf, hb, hq]
        · cases hc : claimQuery db.rows jobTypes locked now with
          | mk jo rows1 =>
            cases jo with
            | none => simp [Pop, h1, hf, hb, hq, hc] at h
            | some job =>
              by_cases he : f.execFail = true
              · simp [Pop, h1, hf, hb, hq, hc, he]
              · by_cases hcm : f.commitFail = true
                · simp [Pop, h1, hf, hb, hq, hc, he, hcm]
                · simp [Pop, h1, hf, hb, hq, hc, he, hcm] at h

/-- Witness for C3: a failing commit on a one-row backlog leaves the
claimed row exactly as it was (the whole table is unchanged). -/
theorem pop_error_rolls_back_witness :
    (Pop qOne dbOne [] 7 ["email"] commitFault).2 = dbOne :=
  pop_error_rolls_back qOne dbOne [] 7 ["email"] commitFault
    "queue: failed to commit transaction" rfl

/-- C2: skip-locked claim semantics.  Row locks held by concurrent
in-flight claims are the `locked` set; a second claimant runs the same
claim statement over the same (pre-commit) table with the first
claimant's row added to the lock set.  Then the two claimants obtain
rows with distinct ids, and neither ever selects a row locked by another
in-flight claim (it skips it rather than blocking: the claim statement
is total and simply returns its result over the unlocked rows). -/
theorem pop_concurrent_distinct (rows : List Job) (types1 types2 : List String)
    (locked : List Nat) (now1 now2 : Nat) (j1 j2 : Job)
    (h1 : (claimQuery rows types1 locked now1).1 = some j1)
    (h2 : (claimQuery rows types2 (j1.id :: locked) now2).1 = some j2) :
    j1.id ≠ j2.id ∧ j1.id ∉ locked ∧ j2.id ∉ locked := by
  rcases claimQuery_fst h1 with ⟨a1, hs1, hj1, _⟩
  rcases claimQuery_fst h2 with ⟨a2, hs2, hj2, _⟩
  rcases eligible_iff.mp (selectEligible_mem hs1).2 with ⟨_, _, hnl1⟩
  rcases eligible_iff.mp (selectEligible_mem hs2).2 with ⟨_, _, hnl2⟩
  have hid1 : j1.id = a1.id := by rw [hj1]; rfl
  have hid2 : j2.id = a2.id := by rw [hj2]; rfl
  rw [List.mem_cons, not_or] at hnl2
  refine ⟨?_, ?_, ?_⟩
  · rw [hid2]
    exact Ne.symm hnl2.1
  · rw [hid1]
    exact hnl1
  · rw [hid2]
    exact hnl2.2

/-- Witness for C2: over a two-row backlog, a first claim takes row 1;
a concurrent claim that must skip the locked row 1 takes row 2. -/
theorem pop_concurrent_distinct_witness :
    (claimUpdate 5 jobWaiting).id ≠ (claimUpdate 6 jobWaiting2).id ∧
    (claimUpdate 5 jobWaiting).id ∉ ([] : List Nat) ∧
    (claimUpdate 6 jobWaiting2).id ∉ ([] : List Nat) :=
  pop_concurrent_distinct dbTwo.rows ["email"] ["email"] [] 5 6
    (claimUpdate 5 jobWaiting) (claimUpdate 6 jobWaiting2) (by decide) (by decide)

/-- C10: the row that the claim statement returns — the exact `Job` value
`Pop` passes to the handler — is the post-claim image of a previously
waiting row: status `running`, error and `finished_at` cleared,
`started_at = now`, and attempt one more than the pre-claim attempt, with
id, type and data unchanged. -/
theorem handler_receives_claimed_row (rows : List Job) (jobTypes : List String)
    (locked : List Nat) (now : Nat) (j' : Job)
    (h : (claimQuery rows jobTypes locked now).1 = some j') :
    j'.status = JobStatusRunning ∧ j'.error = none ∧ j'.finishedAt = none ∧
    j'.startedAt = some now ∧
    ∃ j0 ∈ rows, j0.status = JobStatusWaiting ∧ j0.id = j'.id ∧
      j0.jobType = j'.jobType ∧ j0.data = j'.data ∧ j'.attempt = j0.attempt + 1 := by
  rcases claimQuery_fst h with ⟨j0, hs, hj, _⟩
  have hmem := (selectEligible_mem hs).1
  have helig := eligible_iff.mp (selectEligible_mem hs).2
  subst hj
  exact ⟨rfl, rfl, rfl, rfl, j0, hmem, helig.1, rfl, rfl, rfl, rfl⟩

/-- Witness for C10 at a one-row backlog. -/
theorem handler_receives_claimed_row_witness :
    (claimUpdate 5 jobWaiting).status = JobStatusRunning ∧
    (claimUpdate 5 jobWaiting).error = none ∧
    (claimUpdate 5 jobWaiting).finishedAt = none ∧
    (claimUpdate 5 jobWaiting).startedAt = some 5 ∧
    ∃ j0 ∈ dbOne.rows, j0.status = JobStatusWaiting ∧
      j0.id = (claimUpdate 5 jobWaiting).id ∧
      j0.jobType = (claimUpdate 5 jobWaiting).jobType ∧
      j0.data = (claimUpdate 5 jobWaiting).data ∧
      (claimUpdate 5 jobWaiting).attempt = j0.attempt + 1 :=
  handler_receives_claimed_row dbOne.rows ["email"] [] 5
    (claimUpdate 5 jobWaiting) (by decide)

/-- C1: over a backlog with at least one eligible waiting row of a
requested type, the claim statement selects exactly the eligible row with
the smallest id (FIFO), returns its fully updated image (status running,
error cleared, attempt incremented, `started_at = now`, `finished_at`
cleared), and rewrites exactly that one row of the table, leaving every
other row in place. -/
theorem pop_claims_min_id_row (rows : List Job) (jobTypes : List String)
    (locked : List Nat) (now : Nat) (j0 : Job)
    (hmem : j0 ∈ rows) (helig : eligible jobTypes locked j0 = true)
    (hnodup : (rows.map Job.id).Nodup) :
    ∃ j, j ∈ rows ∧ eligible jobTypes locked j = true ∧
      (∀ x ∈ rows, eligible jobTypes locked x = true → j.id ≤ x.id) ∧
      (claimQuery rows jobTypes locked now).1 = some (claimUpdate now j) ∧
      (claimUpdate now j).status = JobStatusRunning ∧
      (claimUpdate now j).error = none ∧
      (claimUpdate now j).attempt = j.attempt + 1 ∧
      (claimUpdate now j).startedAt = some now ∧
      (claimUpdate now j).finishedAt = none ∧
      ∃ l1 l2, rows = l1 ++ j :: l2 ∧
        (claimQuery rows jobTypes locked now).2 = l1 ++ claimUpdate now j :: l2 := by
  have hfe : selectEligible rows jobTypes locked ≠ none := by
    intro hn
    have hx := (selectEligible_eq_none.mp hn) j0 hmem
    rw [helig] at hx
    exact Bool.noConfusion hx
  rcases Option.ne_none_iff_exists'.mp hfe with ⟨j, hs⟩
  have hjmem := (selectEligible_mem hs).1
  have hjelig := (selectEligible_mem hs).2
  rcases List.append_of_mem hjmem with ⟨l1, l2, hsplit⟩
  refine ⟨j, hjmem, hjelig, selectEligible_min hs, ?_, rfl, rfl, rfl, rfl, rfl,
    l1, l2, hsplit, ?_⟩
  · simp only [claimQuery, hs]
  · simp only [claimQuery, hs]
    rw [hsplit] at hnodup ⊢
    exact updateRow_split l1 l2 j (claimUpdate now) hnodup

/-- Witness for C1 over the two-row backlog: row 1 is the FIFO choice. -/
theorem pop_claims_min_id_row_witness :
    ∃ j, j ∈ dbTwo.rows ∧ eligible ["email"] [] j = true ∧
      (∀ x ∈ dbTwo.rows, eligible ["email"] [] x = true → j.id ≤ x.id) ∧
      (claimQuery dbTwo.rows ["email"] [] 5).1 = some (claimUpdate 5 j) ∧
      (claimUpdate 5 j).status = JobStatusRunning ∧
      (claimUpdate 5 j).error = none ∧
      (claimUpdate 5 j).attempt = j.attempt + 1 ∧
      (claimUpdate 5 j).startedAt = some 5 ∧
      (claimUpdate 5 j).finishedAt = none ∧
      ∃ l1 l2, dbTwo.rows = l1 ++ j :: l2 ∧
        (claimQuery dbTwo.rows ["email"] [] 5).2 = l1 ++ claimUpdate 5 j :: l2 :=
  pop_claims_min_id_row dbTwo.rows ["email"] [] 5 jobWaiting
    (by decide) (by decide) (by decide)

/-- C4: on a successful claim, `Pop` returns success (the handler-domain
outcome is never surfaced as a call failure), and the claimed row's
terminal state is determined by the handler's return value on the claimed
row image: `none` (nil Go error) gives status done, `some msg` gives
status error with the message stored; in both cases the stored error is
exactly the handler outcome (clearing any prior error), the attempt is
the pre-claim attempt plus one, and `finished_at` is set to now.  Every
other row is untouched. -/
theorem pop_handler_outcome (q : Queue) (db : DB) (locked : List Nat) (now : Nat)
    (jobTypes : List String) (j0 : Job)
    (hne : jobTypes ≠ [])
    (hh : ∀ t ∈ jobTypes, hasHandler q t = true)
    (hsel : selectEligible db.rows jobTypes locked = some j0)
    (hnodup : (db.rows.map Job.id).Nodup) :
    (Pop q db locked now jobTypes noFaults).1 = .ok () ∧
    ∃ l1 l2, db.rows = l1 ++ j0 :: l2 ∧
      (Pop q db locked now jobTypes noFaults).2.rows =
        l1 ++
          ({ id := j0.id, jobType := j0.jobType, data := j0.data,
             status := if (applyHandler q (claimUpdate now j0).jobType
                          (claimUpdate now j0)).isNone
                       then JobStatusDone else JobStatusError,
             error := applyHandler q (claimUpdate now j0).jobType
                        (claimUpdate now j0),
             attempt := j0.attempt + 1, createdAt := j0.createdAt,
             startedAt := some now, finishedAt := some now } : Job) :: l2 := by
  have hempty : jobTypes.isEmpty = false := by
    cases jobTypes with
    | nil => exact absurd rfl hne
    | cons a as => rfl
  have hpop := pop_success_eq q db locked now jobTypes j0 noFaults hempty
    (find_missing_none hh) hsel rfl rfl rfl rfl
  rcases List.append_of_mem (selectEligible_mem hsel).1 with ⟨l1, l2, hsplit⟩
  refine ⟨by rw [hpop], l1, l2, hsplit, ?_⟩
  rw [hpop]
  show updateRow db.rows j0.id (claimResolve q j0 now) = _
  rw [hsplit] at hnodup ⊢
  rw [updateRow_split l1 l2 j0 (claimResolve q j0 now) hnodup]
  rfl

/-- Witness for C4 with an always-failing handler: the row ends in status
error carrying the handler's message, and `Pop` still reports success. -/
theorem pop_handler_outcome_witness :
    (Pop qErr dbOne [] 5 ["email"] noFaults).1 = .ok () ∧
    ∃ l1 l2, dbOne.rows = l1 ++ jobWaiting :: l2 ∧
      (Pop qErr dbOne [] 5 ["email"] noFaults).2.rows =
        l1 ++
          ({ id := jobWaiting.id, jobType := jobWaiting.jobType,
             data := jobWaiting.data,
             status := if (applyHandler qErr (claimUpdate 5 jobWaiting).jobType
                          (claimUpdate 5 jobWaiting)).isNone
                       then JobStatusDone else JobStatusError,
             error := applyHandler qErr (claimUpdate 5 jobWaiting).jobType
                        (claimUpdate 5 jobWaiting),
             attempt := jobWaiting.attempt + 1,
             createdAt := jobWaiting.createdAt,
             startedAt := some 5, finishedAt := some 5 } : Job) :: l2 :=
  pop_handler_outcome qErr dbOne [] 5 ["email"] jobWaiting
    (by decide) (by decide) (by decide) (by decide)

/-- C8: `Put` and `Pop` (under any fault environment, hence also the
claim-only and resolve steps individually, whose effects are the two
updates composed here) preserve the row-state invariant: `finished_at`
non-null only for status done/error, `started_at` non-null whenever
status differs from waiting. -/
theorem operations_preserve_row_invariant (q : Queue) (db : DB) (locked : List Nat)
    (now : Nat) (jobTypes : List String) (f : PopFaults) (t data : String)
    (hinv : ∀ r ∈ db.rows, rowInvariant r) :
    (∀ r ∈ (Put q db now t data).2.rows, rowInvariant r) ∧
    (∀ r ∈ (Pop q db locked now jobTypes f).2.rows, rowInvariant r) := by
  constructor
  · intro r hr
    by_cases hp : hasHandler q t = true
    · simp [Put, hp] at hr
      rcases hr with hr | hr
      · exact hinv r hr
      · subst hr
        unfold rowInvariant
        refine ⟨fun h => ?_, fun h => ?_⟩
        · simp at h
        · exact absurd rfl h
    · have hp' : hasHandler q t = false := by simpa using hp
      simp [Put, hp'] at hr
      exact hinv r hr
  · rcases pop_result_shape q db locked now jobTypes f with hdb | ⟨j0, hs, hpop⟩
    · intro r hr
      rw [hdb] at hr
      exact hinv r hr
    · intro r hr
      rw [hpop] at hr
      have hr2 : r ∈ updateRow db.rows j0.id (claimResolve q j0 now) := hr
      rcases mem_updateRow hr2 with ⟨r0, hr0, heq⟩
      by_cases hid : (r0.id == j0.id) = true
      · rw [if_pos hid] at heq
        subst heq
        unfold rowInvariant
        refine ⟨fun _ => ?_, fun _ => ?_⟩
        · by_cases hN : (applyHandler q (claimUpdate now j0).jobType
              (claimUpdate now j0)).isNone = true
          · left
            simp [claimResolve, hN]
          · right
            simp [claimResolve, hN]
        · simp [claimResolve]
      · rw [if_neg hid] at heq
        subst heq
        exact hinv _ hr0

/-- Witness for C8 at a concrete queue, table and operation arguments. -/
theorem operations_preserve_row_invariant_witness :
    (∀ r ∈ (Put qOne dbOne 9 "email" "x").2.rows, rowInvariant r) ∧
    (∀ r ∈ (Pop qOne dbOne [] 9 ["email"] noFaults).2.rows, rowInvariant r) :=
  operations_preserve_row_invariant qOne dbOne [] 9 ["email"] noFaults "email" "x"
    (by decide)

/-- C9: the attempt counter starts at 0 for every row `Put` inserts, the
claim statement returns a row whose attempt is exactly the pre-claim
attempt plus one, and any `Pop` call (under any fault environment) maps
the table rowwise so that ids are preserved and no attempt ever
decreases. -/
theorem attempt_counter (q : Queue) (db : DB) (locked : List Nat) (now : Nat)
    (jobTypes : List String) (f : PopFaults) (t data : String) :
    (∀ r ∈ (Put q db now t data).2.rows, r ∈ db.rows ∨ r.attempt = 0) ∧
    (∀ j', (claimQuery db.rows jobTypes locked now).1 = some j' →
      ∃ j0 ∈ db.rows, j0.id = j'.id ∧ j'.attempt = j0.attempt + 1) ∧
    List.Forall₂ (fun r r' => r.id = r'.id ∧ r.attempt ≤ r'.attempt)
      db.rows (Pop q db locked now jobTypes f).2.rows := by
  refine ⟨?_, ?_, ?_⟩
  · intro r hr
    by_cases hp : hasHandler q t = true
    · simp [Put, hp] at hr
      rcases hr with hr | hr
      · exact Or.inl hr
      · subst hr
        exact Or.inr rfl
    · have hp' : hasHandler q t = false := by simpa using hp
      simp [Put, hp'] at hr
      exact Or.inl hr
  · intro j' hj'
    rcases claimQuery_fst hj' with ⟨j0, hs, hj, _⟩
    subst hj
    exact ⟨j0, (selectEligible_mem hs).1, rfl, rfl⟩
  · rcases pop_result_shape q db locked now jobTypes f with hdb | ⟨j0, hs, hpop⟩
    · rw [hdb]
      exact List.forall₂_same.mpr (fun x _ => ⟨rfl, le_refl _⟩)
    · rw [hpop]
      exact forall2_updateRow db.rows j0.id (claimResolve q j0 now) _
        (fun r _ => ⟨rfl, le_refl _⟩)
        (fun r _ => ⟨rfl, Nat.le_succ _⟩)

/-- Witness for C9 at a concrete queue, table and operation arguments. -/
theorem attempt_counter_witness :
    (∀ r ∈ (Put qOne dbOne 9 "email" "x").2.rows, r ∈ dbOne.rows ∨ r.attempt = 0) ∧
    (∀ j', (claimQuery dbOne.rows ["email"] [] 9).1 = some j' →
      ∃ j0 ∈ dbOne.rows, j0.id = j'.id ∧ j'.attempt = j0.attempt + 1) ∧
    List.Forall₂ (fun r r' => r.id = r'.id ∧ r.attempt ≤ r'.attempt)
      dbOne.rows (Pop qOne dbOne [] 9 ["email"] noFaults).2.rows :=
  attempt_counter qOne dbOne [] 9 ["email"] noFaults "email" "x"

end Pgq
